import Mathlib

/-!
# Verification of the road-damage detection geometry pipeline

Shallow embedding of the numeric core of `src/backend/server.js`:
the letterbox preprocessor (`preprocessImage`, lines 48-81) and the
detection coordinate mapper (`processDetections`, lines 84-104), plus the
model-output presence check of the `/predict` handler (line 120).

JavaScript numbers are modelled by exact rationals `ℚ`; `Math.round` by
`jsRoundQ` (round half toward positive infinity, which is what JS does);
the possibly-absent `classId` of a 5-element trailing slice by `Option ℚ`.
-/

set_option autoImplicit false

namespace RoadMaint

/-- The module constant `const targetSize = 640` of `server.js` (line 20). -/
def targetSize : ℚ := 640

/-- JavaScript `Math.round`: round half toward positive infinity,
`Math.round(x) = ⌊x + 0.5⌋`, kept in `ℚ`. -/
def jsRoundQ (x : ℚ) : ℚ := (⌊x + 1/2⌋ : ℤ)

/-- Result of the letterbox preprocessor: the uniform scale factor, the
resize target passed to `sharp.resize`, and the four `extend` paddings
(lines 53-70 of `server.js`).  All kept as exact rationals. -/
structure LetterboxResult where
  scale : ℚ
  scaledWidth : ℚ
  scaledHeight : ℚ
  padTop : ℚ
  padBottom : ℚ
  padLeft : ℚ
  padRight : ℚ
  deriving Repr, DecidableEq

/-- Geometry computed by `preprocessImage` (`server.js` lines 53-70).  The
source closes over the module constant `targetSize`; it is a parameter here
so that properties quantified over the target size can be stated, and the
pipeline instantiates it with `targetSize = 640`.

`scale = min(targetSize/originalWidth, targetSize/originalHeight)`,
`scaledWidth/Height = Math.round(original * scale)`, and the `extend`
paddings `top = Math.round((targetSize - scaledHeight)/2)`,
`bottom = targetSize - scaledHeight - top` (left/right analogous). -/
def preprocessImage (originalWidth originalHeight tSize : ℚ) : LetterboxResult :=
  let scale := min (tSize / originalWidth) (tSize / originalHeight)
  let scaledWidth := jsRoundQ (originalWidth * scale)
  let scaledHeight := jsRoundQ (originalHeight * scale)
  let top := jsRoundQ ((tSize - scaledHeight) / 2)
  let bottom := tSize - scaledHeight - top
  let left := jsRoundQ ((tSize - scaledWidth) / 2)
  let right := tSize - scaledWidth - left
  ⟨scale, scaledWidth, scaledHeight, top, bottom, left, right⟩

/-- One detection produced by the mapper (`server.js` lines 93-100).
`classId` is `none` exactly when the destructured slice had only five
elements, in which case the JS object holds `classId: undefined`. -/
structure Detection where
  x : ℚ
  y : ℚ
  width : ℚ
  height : ℚ
  confidence : ℚ
  classId : Option ℚ
  deriving Repr, DecidableEq

/-- The coordinate formula applied to each of the four geometry fields
(`server.js` lines 94-97): `((value / targetSize) * originalDim) / scale`. -/
def mapCoord (value originalDim scale : ℚ) : ℚ :=
  value / targetSize * originalDim / scale

/-- The mapper `processDetections` (`server.js` lines 84-104).  The JS loop
walks the flat output array in steps of 6 and destructures
`rawData.slice(i, i+6)` into `[x_center, y_center, width, height,
confidence, classId]`; a slice shorter than 5 leaves `confidence`
undefined, so `confidence > 0.5` is false and nothing is pushed; a slice of
exactly 5 leaves only `classId` undefined (`none` here).  Rows with
`confidence > 0.5` are pushed in input order with the four geometry fields
mapped by `mapCoord` and `confidence`/`classId` copied through. -/
def processDetections (rawData : List ℚ)
    (originalWidth originalHeight scale : ℚ) : List Detection :=
  match rawData with
  | xc :: yc :: w :: h :: conf :: rest =>
    match rest with
    | cid :: rest' =>
      (if 1/2 < conf then
        [⟨mapCoord xc originalWidth scale, mapCoord yc originalHeight scale,
          mapCoord w originalWidth scale, mapCoord h originalHeight scale,
          conf, some cid⟩]
      else []) ++ processDetections rest' originalWidth originalHeight scale
    | [] =>
      if 1/2 < conf then
        [⟨mapCoord xc originalWidth scale, mapCoord yc originalHeight scale,
          mapCoord w originalWidth scale, mapCoord h originalHeight scale,
          conf, none⟩]
      else []
  | _ => []

/-- One raw model output row, the six consecutive values the mapper
destructures (`RawDetectionRow` of the spec). -/
structure RawRow where
  xCenter : ℚ
  yCenter : ℚ
  width : ℚ
  height : ℚ
  confidence : ℚ
  classId : ℚ
  deriving Repr, DecidableEq

/-- The six values of a row, in the fixed field order consumed by the
mapper. -/
def encodeRow (r : RawRow) : List ℚ :=
  [r.xCenter, r.yCenter, r.width, r.height, r.confidence, r.classId]

/-- Flat model output built from whole rows: exactly the sequences whose
length is a multiple of 6. -/
def encodeRows : List RawRow → List ℚ
  | [] => []
  | r :: rs => encodeRow r ++ encodeRows rs

/-- The detection produced from one surviving row. -/
def mapRow (originalWidth originalHeight scale : ℚ) (r : RawRow) : Detection :=
  ⟨mapCoord r.xCenter originalWidth scale,
   mapCoord r.yCenter originalHeight scale,
   mapCoord r.width originalWidth scale,
   mapCoord r.height originalHeight scale,
   r.confidence, some r.classId⟩

/-- The model-output presence check of the `/predict` handler
(`server.js` lines 118-127): `if (!output || !output.data) throw new
Error("Invalid Model Output")`, then `processDetections` on the data.
Only absence is checked; `none` models a missing output or missing `data`
field, `some raw` an output array of any length. -/
def checkAndProcess (output : Option (List ℚ))
    (originalWidth originalHeight scale : ℚ) : Except String (List Detection) :=
  match output with
  | none => Except.error "Invalid Model Output"
  | some raw => Except.ok (processDetections raw originalWidth originalHeight scale)

/-! ## Helper lemmas -/

/-- Unfolding the mapper over one whole leading row. -/
theorem processDetections_cons_row (r : RawRow) (tail : List ℚ)
    (ow oh s : ℚ) :
    processDetections (encodeRow r ++ tail) ow oh s =
      (if 1/2 < r.confidence then [mapRow ow oh s r] else []) ++
        processDetections tail ow oh s := by
  simp [encodeRow, processDetections, mapRow]

/-- The mapper on whole rows is filter-then-map. -/
theorem processDetections_encodeRows (rows : List RawRow) (ow oh s : ℚ) :
    processDetections (encodeRows rows) ow oh s =
      (rows.filter fun r => 1/2 < r.confidence).map (mapRow ow oh s) := by
  induction rows with
  | nil => rfl
  | cons r rs ih =>
    rw [encodeRows, processDetections_cons_row, ih]
    by_cases h : (2⁻¹ : ℚ) < r.confidence <;>
      simp [List.filter_cons, one_div, h]

/-- A flat sequence with fewer than five values yields no detection: the
destructured `confidence` is undefined. -/
theorem processDetections_short (tail : List ℚ) (ow oh s : ℚ)
    (h : tail.length < 5) : processDetections tail ow oh s = [] := by
  match tail with
  | [] => rfl
  | [a] => rfl
  | [a, b] => rfl
  | [a, b, c] => rfl
  | [a, b, c, d] => rfl
  | a :: b :: c :: d :: e :: rest => simp at h; omega

/-- The mapper emits at most one detection per started chunk of six. -/
theorem processDetections_length_le : ∀ (raw : List ℚ) (ow oh s : ℚ),
    (processDetections raw ow oh s).length ≤ (raw.length + 5) / 6
  | [], ow, oh, s => by
    rw [processDetections_short [] ow oh s (by simp)]; simp
  | [a], ow, oh, s => by
    rw [processDetections_short [a] ow oh s (by simp)]; simp
  | [a, b], ow, oh, s => by
    rw [processDetections_short [a, b] ow oh s (by simp)]; simp
  | [a, b, c], ow, oh, s => by
    rw [processDetections_short [a, b, c] ow oh s (by simp)]; simp
  | [a, b, c, d], ow, oh, s => by
    rw [processDetections_short [a, b, c, d] ow oh s (by simp)]; simp
  | [a, b, c, d, e], ow, oh, s => by
    simp only [processDetections]
    split <;> simp
  | a :: b :: c :: d :: e :: f :: rest, ow, oh, s => by
    have ih := processDetections_length_le rest ow oh s
    simp only [processDetections, List.length_append, List.length_cons]
    split <;> simp only [List.length_singleton, List.length_nil] <;> omega

/-! ## Claim theorems -/

/-- C1: on a raw output sequence made of whole 6-field rows and any
transform with positive scale, the mapper returns exactly the rows with
confidence strictly above 0.5, in input order, each geometry field mapped
by `(value / targetSize) * originalDimension / scale` and confidence and
classId copied through; a row at confidence exactly 0.5 is dropped and one
at 0.5001 is kept. -/
theorem mapper_filter_and_map_c1 (rows : List RawRow) (ow oh s : ℚ)
    (hs : 0 < s) :
    processDetections (encodeRows rows) ow oh s =
      (rows.filter fun r => 1/2 < r.confidence).map (mapRow ow oh s) ∧
    processDetections (encodeRows [⟨0, 0, 0, 0, 1/2, 0⟩]) ow oh s = [] ∧
    processDetections (encodeRows [⟨0, 0, 0, 0, 5001/10000, 0⟩]) ow oh s =
      [mapRow ow oh s ⟨0, 0, 0, 0, 5001/10000, 0⟩] := by
  refine ⟨processDetections_encodeRows rows ow oh s, ?_, ?_⟩ <;>
    rw [processDetections_encodeRows] <;> norm_num [List.filter_cons]

/-- Witness for C1 at one concrete row and transform. -/
theorem mapper_filter_and_map_c1_witness :
    (0 : ℚ) < 1 ∧
    processDetections (encodeRows [⟨320, 320, 100, 100, 9/10, 1⟩]) 640 640 1 =
      (([⟨320, 320, 100, 100, 9/10, 1⟩] : List RawRow).filter
        fun r => 1/2 < r.confidence).map (mapRow 640 640 1) :=
  ⟨by norm_num,
   (mapper_filter_and_map_c1 [⟨320, 320, 100, 100, 9/10, 1⟩] 640 640 1
     (by norm_num)).1⟩

/-- C8: an empty raw output sequence yields an empty detection list and the
handler raises no error on it (the presence check only rejects a missing
output). -/
theorem empty_output_empty_c8 (ow oh s : ℚ) :
    processDetections [] ow oh s = [] ∧
    checkAndProcess (some []) ow oh s = Except.ok [] :=
  ⟨rfl, rfl⟩

/-- C10: the mapper is total on flat sequences of any length (the Lean
function is total by construction, mirroring the JS loop which performs no
throwing operation): a trailing partial chunk with fewer than five values
contributes nothing, and at most one detection is produced per started
chunk of six, so the output length is at most the ceiling of n/6. -/
theorem mapper_total_c10 (rows : List RawRow) (tail raw : List ℚ)
    (ow oh s : ℚ) (htail : tail.length < 5) :
    processDetections (encodeRows rows ++ tail) ow oh s =
      processDetections (encodeRows rows) ow oh s ∧
    (processDetections raw ow oh s).length ≤ (raw.length + 5) / 6 := by
  constructor
  · induction rows with
    | nil =>
      simp only [encodeRows, List.nil_append]
      rw [processDetections_short tail ow oh s htail]
      rfl
    | cons r rs ih =>
      rw [encodeRows, List.append_assoc, processDetections_cons_row,
        processDetections_cons_row, ih]
  · exact processDetections_length_le raw ow oh s

/-- Witness for C10: one whole row followed by a dangling 3-value tail. -/
theorem mapper_total_c10_witness :
    ([(1 : ℚ), 2, 3].length < 5) ∧
    (processDetections (encodeRows [⟨320, 320, 100, 100, 9/10, 1⟩] ++ [1, 2, 3])
        640 640 1 =
      processDetections (encodeRows [⟨320, 320, 100, 100, 9/10, 1⟩]) 640 640 1 ∧
    (processDetections [0, 0] 640 640 1).length ≤ ([(0 : ℚ), 0].length + 5) / 6) :=
  ⟨by simp,
   mapper_total_c10 [⟨320, 320, 100, 100, 9/10, 1⟩] [1, 2, 3] [0, 0] 640 640 1
     (by simp)⟩

/-- C7 counterexample: a raw output of length 7 (not a multiple of 6) does
NOT fail — the handler's check only rejects an absent output, and the
mapper processes the full leading row and silently drops the dangling
value, so a detection list is produced. -/
theorem length_seven_ok_cex_c7 :
    checkAndProcess (some [320, 320, 100, 100, 9/10, 1, 7]) 640 640 1 =
      Except.ok [⟨320, 320, 100, 100, 9/10, some 1⟩] ∧
    ∀ e : String,
      checkAndProcess (some [320, 320, 100, 100, 9/10, 1, 7]) 640 640 1 ≠
        Except.error e := by
  have hmain :
      checkAndProcess (some [320, 320, 100, 100, 9/10, 1, 7]) 640 640 1 =
        Except.ok [⟨320, 320, 100, 100, 9/10, some 1⟩] := by
    simp only [checkAndProcess]
    norm_num [processDetections, mapCoord, targetSize]
  refine ⟨hmain, fun e h => ?_⟩
  rw [hmain] at h
  exact Except.noConfusion h

/-- C7 amended: the core raises the Invalid Model Output error exactly when
the model output (or its `data` field) is absent; any present flat
sequence, of any length — in particular length 7 — is processed without
error into a detection list. -/
theorem model_output_presence_c7 :
    (∀ ow oh s : ℚ,
      checkAndProcess none ow oh s = Except.error "Invalid Model Output") ∧
    (∀ (raw : List ℚ) (ow oh s : ℚ),
      checkAndProcess (some raw) ow oh s =
        Except.ok (processDetections raw ow oh s)) ∧
    checkAndProcess (some [320, 320, 100, 100, 9/10, 1, 7]) 640 640 1 =
      Except.ok (processDetections [320, 320, 100, 100, 9/10, 1] 640 640 1) :=
  ⟨fun _ _ _ => rfl, fun _ _ _ _ => rfl, rfl⟩

/-- C6 counterexample: the produced `x` is the mapped center, not the
top-left corner: for the row `[320, 320, 100, 100, 0.9, 1]` on a 640×640
image at scale 1 the output `x` is 320, not `320 - 100/2 = 270` as the
top-left reading requires. -/
theorem topleft_cex_c6 :
    (processDetections [320, 320, 100, 100, 9/10, 1] 640 640 1).map
        Detection.x = [320] ∧
    (processDetections [320, 320, 100, 100, 9/10, 1] 640 640 1).map
        Detection.x ≠
      [mapCoord 320 640 1 - mapCoord 100 640 1 / 2] := by
  have hx : (processDetections [320, 320, 100, 100, 9/10, 1] 640 640 1).map
      Detection.x = [320] := by
    norm_num [processDetections, mapCoord, targetSize]
  refine ⟨hx, ?_⟩
  rw [hx]
  norm_num [mapCoord, targetSize]

/-- C6 amended: the produced `x` and `y` fields are the mapped box-center
coordinates (`mapCoord` applied to the row's `xCenter`/`yCenter`); no
center-to-corner conversion is performed. -/
theorem detection_center_c6 (rows : List RawRow) (ow oh s : ℚ) :
    (processDetections (encodeRows rows) ow oh s).map Detection.x =
      ((rows.filter fun r => 1/2 < r.confidence).map
        fun r => mapCoord r.xCenter ow s) ∧
    (processDetections (encodeRows rows) ow oh s).map Detection.y =
      ((rows.filter fun r => 1/2 < r.confidence).map
        fun r => mapCoord r.yCenter oh s) := by
  rw [processDetections_encodeRows]
  constructor <;> simp [List.map_map, Function.comp, mapRow]

/-- C2 counterexample: for a 1280×720 image the preprocessor gives scale
1/2 and the dominant axis scales to exactly 640, yet a confident detection
at the exact canvas center (320, 320) maps to (1280, 720) — double the
true image center (640, 360): the formula divides by `scale` on top of the
`originalDimension / targetSize` factor, so the round-trip fails. -/
theorem center_roundtrip_cex_c2 :
    (preprocessImage 1280 720 640).scale = 1/2 ∧
    (preprocessImage 1280 720 640).scaledWidth = 640 ∧
    (processDetections [320, 320, 0, 0, 9/10, 0] 1280 720
        ((preprocessImage 1280 720 640).scale)).map Detection.x = [1280] ∧
    (processDetections [320, 320, 0, 0, 9/10, 0] 1280 720
        ((preprocessImage 1280 720 640).scale)).map Detection.y = [720] ∧
    (1280 : ℚ) ≠ 1280 / 2 ∧ (720 : ℚ) ≠ 720 / 2 := by
  have hscale : (preprocessImage 1280 720 640).scale = 1/2 := by
    simp only [preprocessImage]
    norm_num [min_def]
  refine ⟨hscale, ?_, ?_, ?_, by norm_num, by norm_num⟩
  · simp only [preprocessImage]
    norm_num [min_def, jsRoundQ]
  · rw [hscale]
    norm_num [processDetections, mapCoord, targetSize]
  · rw [hscale]
    norm_num [processDetections, mapCoord, targetSize]

/-- C2 amended: the center round-trip holds exactly in the degenerate case
`scale = 1`, i.e. when the dominant axis of the image already equals
`targetSize`: then a confident detection at the canvas center (320, 320)
maps to the original image center (w/2, h/2). -/
theorem center_roundtrip_scale_one_c2 (ow oh wid hei conf cid : ℚ)
    (how : 0 < ow) (hoh : 0 < oh) (howle : ow ≤ 640) (hohle : oh ≤ 640)
    (hdom : ow = 640 ∨ oh = 640) (hconf : 1/2 < conf) :
    (preprocessImage ow oh 640).scale = 1 ∧
    (processDetections [320, 320, wid, hei, conf, cid] ow oh
        ((preprocessImage ow oh 640).scale)).map Detection.x = [ow / 2] ∧
    (processDetections [320, 320, wid, hei, conf, cid] ow oh
        ((preprocessImage ow oh 640).scale)).map Detection.y = [oh / 2] := by
  have hscale : (preprocessImage ow oh 640).scale = 1 := by
    simp only [preprocessImage]
    rcases hdom with h | h
    · subst h
      have h1 : (1 : ℚ) ≤ 640 / oh := (one_le_div hoh).mpr hohle
      rw [show (640 : ℚ) / 640 = 1 by norm_num]
      exact min_eq_left h1
    · subst h
      have h1 : (1 : ℚ) ≤ 640 / ow := (one_le_div how).mpr howle
      rw [show (640 : ℚ) / 640 = 1 by norm_num]
      exact min_eq_right h1
  rw [hscale]
  refine ⟨rfl, ?_, ?_⟩ <;>
    · simp only [processDetections, if_pos hconf, mapCoord, targetSize]
      norm_num
      ring

/-- Witness for C2 at a 640×480 image, whose width already equals the
target size. -/
theorem center_roundtrip_scale_one_c2_witness :
    ((0 : ℚ) < 640 ∧ (0 : ℚ) < 480 ∧ (1 : ℚ)/2 < 9/10) ∧
    ((preprocessImage 640 480 640).scale = 1 ∧
    (processDetections [320, 320, 50, 50, 9/10, 0] 640 480
        ((preprocessImage 640 480 640).scale)).map Detection.x = [640 / 2] ∧
    (processDetections [320, 320, 50, 50, 9/10, 0] 640 480
        ((preprocessImage 640 480 640).scale)).map Detection.y = [480 / 2]) :=
  ⟨⟨by norm_num, by norm_num, by norm_num⟩,
   center_roundtrip_scale_one_c2 640 480 50 50 (9/10) 0 (by norm_num)
     (by norm_num) (by norm_num) (by norm_num) (Or.inl rfl) (by norm_num)⟩

/-- C3: the preprocessor computes scale, scaled sizes and paddings by the
stated formulas (`Math.round` modelled by `jsRoundQ`), and on a 1280×720
image with target size 640 yields scale 1/2, scaled size 640×360 and
paddings top/bottom 140, left/right 0. -/
theorem letterbox_formulas_c3 (ow oh : ℚ) (how : 1 ≤ ow) (hoh : 1 ≤ oh) :
    (preprocessImage ow oh 640).scale = min (640 / ow) (640 / oh) ∧
    (preprocessImage ow oh 640).scaledWidth =
      jsRoundQ (ow * (preprocessImage ow oh 640).scale) ∧
    (preprocessImage ow oh 640).scaledHeight =
      jsRoundQ (oh * (preprocessImage ow oh 640).scale) ∧
    (preprocessImage ow oh 640).padTop =
      jsRoundQ ((640 - (preprocessImage ow oh 640).scaledHeight) / 2) ∧
    (preprocessImage ow oh 640).padBottom =
      640 - (preprocessImage ow oh 640).scaledHeight -
        (preprocessImage ow oh 640).padTop ∧
    (preprocessImage ow oh 640).padLeft =
      jsRoundQ ((640 - (preprocessImage ow oh 640).scaledWidth) / 2) ∧
    (preprocessImage ow oh 640).padRight =
      640 - (preprocessImage ow oh 640).scaledWidth -
        (preprocessImage ow oh 640).padLeft ∧
    preprocessImage 1280 720 640 = ⟨1/2, 640, 360, 140, 140, 0, 0⟩ := by
  refine ⟨rfl, rfl, rfl, rfl, rfl, rfl, rfl, ?_⟩
  simp only [preprocessImage, LetterboxResult.mk.injEq]
  norm_num [min_def, jsRoundQ]

/-- Witness for C3 at the spec's 1280×720 scenario. -/
theorem letterbox_formulas_c3_witness :
    ((1 : ℚ) ≤ 1280 ∧ (1 : ℚ) ≤ 720) ∧
    ((preprocessImage 1280 720 640).scale = min (640 / 1280) (640 / 720) ∧
     preprocessImage 1280 720 640 = ⟨1/2, 640, 360, 140, 140, 0, 0⟩) :=
  ⟨⟨by norm_num, by norm_num⟩,
   ⟨(letterbox_formulas_c3 1280 720 (by norm_num) (by norm_num)).1,
    (letterbox_formulas_c3 1280 720 (by norm_num) (by norm_num)).2.2.2.2.2.2.2⟩⟩

/-- C4: for all positive integer dimensions and target size, the scaled
sizes never exceed the target, the two padding pairs sum exactly to the
leftover on their axis, and the scale is strictly positive (including the
degenerate 1×1 image). -/
theorem letterbox_bounds_c4 (ow oh t : ℕ)
    (how : 0 < ow) (hoh : 0 < oh) (ht : 0 < t) :
    (preprocessImage ow oh t).scaledWidth ≤ (t : ℚ) ∧
    (preprocessImage ow oh t).scaledHeight ≤ (t : ℚ) ∧
    (preprocessImage ow oh t).padTop + (preprocessImage ow oh t).padBottom =
      (t : ℚ) - (preprocessImage ow oh t).scaledHeight ∧
    (preprocessImage ow oh t).padLeft + (preprocessImage ow oh t).padRight =
      (t : ℚ) - (preprocessImage ow oh t).scaledWidth ∧
    0 < (preprocessImage ow oh t).scale := by
  have howQ : (0 : ℚ) < ow := by exact_mod_cast how
  have hohQ : (0 : ℚ) < oh := by exact_mod_cast hoh
  have htQ : (0 : ℚ) < t := by exact_mod_cast ht
  have hround : ∀ x : ℚ, x ≤ (t : ℚ) → jsRoundQ x ≤ (t : ℚ) := by
    intro x hx
    have h1 : ⌊x + 1/2⌋ < (t : ℤ) + 1 := by
      apply Int.floor_lt.mpr
      push_cast
      linarith
    have h2 : ⌊x + 1/2⌋ ≤ (t : ℤ) := by omega
    unfold jsRoundQ
    exact_mod_cast h2
  have hswle : (ow : ℚ) * min ((t : ℚ) / ow) ((t : ℚ) / oh) ≤ (t : ℚ) := by
    calc (ow : ℚ) * min ((t : ℚ) / ow) ((t : ℚ) / oh)
        ≤ (ow : ℚ) * ((t : ℚ) / ow) :=
          mul_le_mul_of_nonneg_left (min_le_left _ _) howQ.le
      _ = (t : ℚ) := by field_simp
  have hshle : (oh : ℚ) * min ((t : ℚ) / ow) ((t : ℚ) / oh) ≤ (t : ℚ) := by
    calc (oh : ℚ) * min ((t : ℚ) / ow) ((t : ℚ) / oh)
        ≤ (oh : ℚ) * ((t : ℚ) / oh) :=
          mul_le_mul_of_nonneg_left (min_le_right _ _) hohQ.le
      _ = (t : ℚ) := by field_simp
  simp only [preprocessImage]
  refine ⟨hround _ hswle, hround _ hshle, by ring, by ring,
    lt_min (div_pos htQ howQ) (div_pos htQ hohQ)⟩

/-- Witness for C4 at the degenerate 1×1 image with target 640. -/
theorem letterbox_bounds_c4_witness :
    (0 < 1 ∧ 0 < 640) ∧
    ((preprocessImage 1 1 640).scaledWidth ≤ (640 : ℚ) ∧
     (preprocessImage 1 1 640).scaledHeight ≤ (640 : ℚ) ∧
     (preprocessImage 1 1 640).padTop + (preprocessImage 1 1 640).padBottom =
       (640 : ℚ) - (preprocessImage 1 1 640).scaledHeight ∧
     (preprocessImage 1 1 640).padLeft + (preprocessImage 1 1 640).padRight =
       (640 : ℚ) - (preprocessImage 1 1 640).scaledWidth ∧
     0 < (preprocessImage 1 1 640).scale) :=
  ⟨⟨by norm_num, by norm_num⟩,
   (by
     have h :=
       letterbox_bounds_c4 1 1 640 (by norm_num) (by norm_num) (by norm_num)
     exact_mod_cast h)⟩

/-- C5 counterexample: an in-canvas confident row (all geometry values in
[0, 640]) on a 1280×720 image at its preprocessor scale 1/2 yields
`x + width = 2560`, double the original width 1280 — far outside any small
tolerance of `[0, originalWidth]`. -/
theorem detection_bounds_cex_c5 :
    ((0 : ℚ) ≤ 320 ∧ (320 : ℚ) ≤ targetSize ∧ (1 : ℚ)/2 < 9/10) ∧
    (preprocessImage 1280 720 640).scale = 1/2 ∧
    (processDetections [320, 320, 320, 320, 9/10, 0] 1280 720 (1/2)).map
      (fun d => d.x + d.width) = [2560] ∧
    ¬ ((2560 : ℚ) ≤ 1280 + 128) := by
  refine ⟨⟨by norm_num, by norm_num [targetSize], by norm_num⟩, ?_, ?_,
    by norm_num⟩
  · simp only [preprocessImage]
    norm_num [min_def]
  · norm_num [processDetections, mapCoord, targetSize]

/-- C5 amended: for in-canvas surviving rows the produced detection
satisfies `0 ≤ x`, `0 ≤ y`, and the bounds the formula actually gives:
`x + width ≤ 2·originalWidth/scale` and `y + height ≤ 2·originalHeight/scale`
(the claimed `[0, originalWidth]`×`[0, originalHeight]` envelope fails). -/
theorem detection_bounds_c5 (ow oh s : ℚ) (rows : List RawRow)
    (how : 0 < ow) (hoh : 0 < oh) (hs : 0 < s)
    (hbox : ∀ r ∈ rows,
      0 ≤ r.xCenter ∧ r.xCenter ≤ targetSize ∧
      0 ≤ r.yCenter ∧ r.yCenter ≤ targetSize ∧
      0 ≤ r.width ∧ r.width ≤ targetSize ∧
      0 ≤ r.height ∧ r.height ≤ targetSize) :
    ∀ d ∈ processDetections (encodeRows rows) ow oh s,
      0 ≤ d.x ∧ 0 ≤ d.y ∧
      d.x + d.width ≤ 2 * ow / s ∧ d.y + d.height ≤ 2 * oh / s := by
  have key : ∀ a b dim : ℚ, 0 < dim → a ≤ (640 : ℚ) → b ≤ (640 : ℚ) →
      a / 640 * dim / s + b / 640 * dim / s ≤ 2 * dim / s := by
    intro a b dim hdim ha hb
    have e1 : a / 640 * dim / s + b / 640 * dim / s =
        (a + b) * (dim / (640 * s)) := by ring
    have hs0 : s ≠ 0 := hs.ne'
    have e2 : 2 * dim / s = 1280 * (dim / (640 * s)) := by
      field_simp
      ring
    rw [e1, e2]
    exact mul_le_mul_of_nonneg_right (by linarith)
      (div_nonneg hdim.le (mul_pos (by norm_num : (0 : ℚ) < 640) hs).le)
  rw [processDetections_encodeRows]
  intro d hd
  rw [List.mem_map] at hd
  obtain ⟨r, hrmem, rfl⟩ := hd
  rw [List.mem_filter] at hrmem
  obtain ⟨hx0, hx1, hy0, hy1, hw0, hw1, hh0, hh1⟩ := hbox r hrmem.1
  simp only [targetSize] at hx1 hy1 hw1 hh1
  simp only [mapRow, mapCoord, targetSize]
  refine ⟨?_, ?_, ?_, ?_⟩
  · exact div_nonneg (mul_nonneg (div_nonneg hx0 (by norm_num)) how.le) hs.le
  · exact div_nonneg (mul_nonneg (div_nonneg hy0 (by norm_num)) hoh.le) hs.le
  · exact key _ _ _ how hx1 hw1
  · exact key _ _ _ hoh hy1 hh1

/-- Witness for C5 at a centered in-canvas box on a 1280×720 image at
scale 1/2. -/
theorem detection_bounds_c5_witness :
    0 ≤ (mapRow 1280 720 (1/2) ⟨320, 320, 320, 320, 9/10, 0⟩).x ∧
    0 ≤ (mapRow 1280 720 (1/2) ⟨320, 320, 320, 320, 9/10, 0⟩).y ∧
    (mapRow 1280 720 (1/2) ⟨320, 320, 320, 320, 9/10, 0⟩).x +
      (mapRow 1280 720 (1/2) ⟨320, 320, 320, 320, 9/10, 0⟩).width ≤
        2 * 1280 / (1/2) ∧
    (mapRow 1280 720 (1/2) ⟨320, 320, 320, 320, 9/10, 0⟩).y +
      (mapRow 1280 720 (1/2) ⟨320, 320, 320, 320, 9/10, 0⟩).height ≤
        2 * 720 / (1/2) :=
  detection_bounds_c5 1280 720 (1/2) [⟨320, 320, 320, 320, 9/10, 0⟩]
    (by norm_num) (by norm_num) (by norm_num)
    (by
      intro r hr
      rw [List.mem_singleton] at hr
      subst hr
      norm_num [targetSize])
    (mapRow 1280 720 (1/2) ⟨320, 320, 320, 320, 9/10, 0⟩)
    (by
      rw [processDetections_encodeRows]
      norm_num [List.filter_cons])

end RoadMaint
